import Mathlib

/-!
Shallow embedding of the hyve message server (src/main.rs): a key-exchange
handshake store and a per-recipient message mailbox, both in-memory maps.
Timestamps (chrono DateTime<Utc>) are modelled as integers; Utc::now() becomes
an explicit parameter of every handler that reads the clock. The shared
HashMaps are modelled as association lists; HashMap::insert replaces the
entry at the key, entry().or_insert().push appends to the vector at the key,
and retain filters. HTTP responses are modelled as inductive result types
carrying the serialized payload.
-/

namespace HyveMessageServer

abbrev Timestamp := Int

/-- Embeds enum KeyExchangeStatus (src/main.rs lines 24-30). -/
inductive KeyExchangeStatus where
  | Initiated
  | Paired
  | Complete
  | Expired
  deriving DecidableEq

/-- Embeds struct KeyExchange (src/main.rs lines 10-22). -/
structure KeyExchange where
  initiator_falcon_pubkey : String
  responder_falcon_pubkey : String
  initiator_kyber_pubkey : String
  initiator_signature : String
  responder_signature : Option String
  encapsulated_secret : Option String
  status : KeyExchangeStatus
  created_at : Timestamp
  paired_at : Option Timestamp
  completed_at : Option Timestamp
  deriving DecidableEq

/-- Embeds struct InitKeyExchangeRequest (src/main.rs lines 32-38). -/
structure InitKeyExchangeRequest where
  initiator_falcon_pubkey : String
  responder_falcon_pubkey : String
  initiator_kyber_pubkey : String
  initiator_signature : String
  deriving DecidableEq

/-- Embeds struct PairKeyExchangeRequest (src/main.rs lines 40-46). -/
structure PairKeyExchangeRequest where
  initiator_falcon_pubkey : String
  responder_falcon_pubkey : String
  encapsulated_secret : String
  responder_signature : String
  deriving DecidableEq

/-- Embeds struct CompleteKeyExchangeRequest (src/main.rs lines 48-52). -/
structure CompleteKeyExchangeRequest where
  initiator_falcon_pubkey : String
  responder_falcon_pubkey : String
  deriving DecidableEq

/-- Embeds struct Message (src/main.rs lines 55-61). -/
structure Message where
  from_pubkey : String
  to_pubkey : String
  ciphertext : String
  timestamp : Timestamp
  deriving DecidableEq

/-- Embeds struct StoreMessageRequest (src/main.rs lines 70-75). -/
structure StoreMessageRequest where
  from_pubkey : String
  to_pubkey : String
  ciphertext : String
  deriving DecidableEq

/-- Embeds struct AppState (src/main.rs lines 64-67): the two
Mutex<HashMap<..>> fields, modelled as association lists. -/
structure AppState where
  key_exchanges : List (String × KeyExchange)
  messages : List (String × List Message)
  deriving DecidableEq

/-- The initial state built in main (src/main.rs lines 279-282): two empty maps. -/
def emptyState : AppState := { key_exchanges := [], messages := [] }

/-- HashMap::get on an association list: the value at the first matching key. -/
def mlookup {V : Type} : List (String × V) → String → Option V
  | [], _ => none
  | (k', v) :: rest, k => if k' = k then some v else mlookup rest k

/-- HashMap::insert on an association list: replace the entry at the key if
present, otherwise add it. -/
def minsert {V : Type} : List (String × V) → String → V → List (String × V)
  | [], k, v => [(k, v)]
  | (k', v') :: rest, k, v =>
      if k' = k then (k, v) :: rest else (k', v') :: minsert rest k v

/-- HashMap entry(k).or_insert_with(Vec::new).push(v): append v to the vector
at key k, creating the entry if absent. -/
def mpush {V : Type} : List (String × List V) → String → V → List (String × List V)
  | [], k, v => [(k, [v])]
  | (k', vs) :: rest, k, v =>
      if k' = k then (k', vs ++ [v]) :: rest else (k', vs) :: mpush rest k v

/-- The pair key format!("{}:{}", initiator, responder) used by
init_key_exchange (line 121), pair_exchange (line 157) and
complete_exchange (line 184). -/
def exchangeId (initiator responder : String) : String :=
  initiator ++ ":" ++ responder

/-- Result of the three exchange handlers: HttpResponse Ok with the serialized
KeyExchange, Conflict with a message, BadRequest with a message, or NotFound. -/
inductive ExchangeResponse where
  | ok (ke : KeyExchange)
  | conflict (msg : String)
  | badRequest (msg : String)
  | notFound
  deriving DecidableEq

/-- Result of store_message: the source returns
HttpResponse Ok json("Message stored successfully"), a plain string. The
storedMessage constructor exists only so that the alternative of returning the
created Message is expressible; the embedding of the source never produces it. -/
inductive StoreResponse where
  | confirmation (msg : String)
  | storedMessage (m : Message)
  deriving DecidableEq

/-- The Message value constructed by store_message (src/main.rs lines 84-89). -/
def newMessage (message : StoreMessageRequest) (now : Timestamp) : Message :=
  { from_pubkey := message.from_pubkey
    to_pubkey := message.to_pubkey
    ciphertext := message.ciphertext
    timestamp := now }

/-- Embeds store_message (src/main.rs lines 78-97): build the Message with the
server clock, push it onto the vector of the recipient (created if absent), and
return the textual confirmation. -/
def store_message (data : AppState) (message : StoreMessageRequest) (now : Timestamp) :
    AppState × StoreResponse :=
  let new_message := newMessage message now
  ({ data with messages := mpush data.messages message.to_pubkey new_message },
   StoreResponse.confirmation "Message stored successfully")

/-- Embeds get_messages (src/main.rs lines 100-111): return the per-recipient
vector, or an empty vector if the recipient is unknown; both branches are an
Ok response, so the payload is returned directly. The state component records
that the handler leaves the store untouched. -/
def get_messages (data : AppState) (recipient : String) :
    AppState × List Message :=
  match mlookup data.messages recipient with
  | some recipient_messages => (data, recipient_messages)
  | none => (data, [])

/-- The fresh record built by init_key_exchange (src/main.rs lines 131-142). -/
def newExchange (req : InitKeyExchangeRequest) (now : Timestamp) : KeyExchange :=
  { initiator_falcon_pubkey := req.initiator_falcon_pubkey
    responder_falcon_pubkey := req.responder_falcon_pubkey
    initiator_kyber_pubkey := req.initiator_kyber_pubkey
    initiator_signature := req.initiator_signature
    responder_signature := none
    encapsulated_secret := none
    status := KeyExchangeStatus.Initiated
    created_at := now
    paired_at := none
    completed_at := none }

/-- Embeds init_key_exchange (src/main.rs lines 114-147): reject with Conflict
when the existing record for the pair key is Complete; otherwise insert a fresh
Initiated record (overwriting any existing one) and return it. -/
def init_key_exchange (data : AppState) (req : InitKeyExchangeRequest) (now : Timestamp) :
    AppState × ExchangeResponse :=
  let exchange_id := exchangeId req.initiator_falcon_pubkey req.responder_falcon_pubkey
  match mlookup data.key_exchanges exchange_id with
  | some existing =>
      if existing.status = KeyExchangeStatus.Complete then
        (data, ExchangeResponse.conflict "Active key exchange already exists")
      else
        let key_exchange := newExchange req now
        ({ data with key_exchanges := minsert data.key_exchanges exchange_id key_exchange },
         ExchangeResponse.ok key_exchange)
  | none =>
      let key_exchange := newExchange req now
      ({ data with key_exchanges := minsert data.key_exchanges exchange_id key_exchange },
       ExchangeResponse.ok key_exchange)

/-- Embeds pair_exchange (src/main.rs lines 149-173): NotFound when no record
exists at the pair key; BadRequest when the record is not Initiated; otherwise
set responder_signature, encapsulated_secret, status Paired and paired_at, and
return the updated record. -/
def pair_exchange (data : AppState) (req : PairKeyExchangeRequest) (now : Timestamp) :
    AppState × ExchangeResponse :=
  let exchange_id := exchangeId req.initiator_falcon_pubkey req.responder_falcon_pubkey
  match mlookup data.key_exchanges exchange_id with
  | some key_exchange =>
      if key_exchange.status ≠ KeyExchangeStatus.Initiated then
        (data, ExchangeResponse.badRequest "Key exchange not in Initiated state")
      else
        let ke' := { key_exchange with
          responder_signature := some req.responder_signature
          encapsulated_secret := some req.encapsulated_secret
          status := KeyExchangeStatus.Paired
          paired_at := some now }
        ({ data with key_exchanges := minsert data.key_exchanges exchange_id ke' },
         ExchangeResponse.ok ke')
  | none => (data, ExchangeResponse.notFound)

/-- Embeds complete_exchange (src/main.rs lines 176-198): NotFound when no
record exists at the pair key; BadRequest when the record is not Paired;
otherwise set status Complete and completed_at, and return the updated
record. -/
def complete_exchange (data : AppState) (req : CompleteKeyExchangeRequest) (now : Timestamp) :
    AppState × ExchangeResponse :=
  let conversation_id := exchangeId req.initiator_falcon_pubkey req.responder_falcon_pubkey
  match mlookup data.key_exchanges conversation_id with
  | some key_exchange =>
      if key_exchange.status ≠ KeyExchangeStatus.Paired then
        (data, ExchangeResponse.badRequest "Key exchange not in Paired state")
      else
        let ke' := { key_exchange with
          status := KeyExchangeStatus.Complete
          completed_at := some now }
        ({ data with key_exchanges := minsert data.key_exchanges conversation_id ke' },
         ExchangeResponse.ok ke')
  | none => (data, ExchangeResponse.notFound)

/-- Embeds get_initiated_exchanges (src/main.rs lines 202-218): the entries
whose record has the given responder_falcon_pubkey and status Initiated. The
state component records that the handler leaves the store untouched. -/
def get_initiated_exchanges (data : AppState) (responder_falcon_pubkey : String) :
    AppState × List (String × KeyExchange) :=
  (data,
   data.key_exchanges.filter (fun p =>
     decide (p.2.responder_falcon_pubkey = responder_falcon_pubkey ∧
             p.2.status = KeyExchangeStatus.Initiated)))

/-- Embeds get_paired_exchanges (src/main.rs lines 221-237): the entries whose
record has the given initiator_signature (note: the handler filters on the
initiator_signature field, not on responder_falcon_pubkey) and status Paired. -/
def get_paired_exchanges (data : AppState) (initiator_sig : String) :
    AppState × List (String × KeyExchange) :=
  (data,
   data.key_exchanges.filter (fun p =>
     decide (p.2.initiator_signature = initiator_sig ∧
             p.2.status = KeyExchangeStatus.Paired)))

/-- Embeds get_completed_exchanges (src/main.rs lines 241-257): the entries
whose record has the given responder_falcon_pubkey and status Complete. -/
def get_completed_exchanges (data : AppState) (responder_falcon_pubkey : String) :
    AppState × List (String × KeyExchange) :=
  (data,
   data.key_exchanges.filter (fun p =>
     decide (p.2.responder_falcon_pubkey = responder_falcon_pubkey ∧
             p.2.status = KeyExchangeStatus.Complete)))

/-- chrono Duration::hours(24) in seconds, the sweep expiry window. -/
def expiryWindow : Timestamp := 24 * 60 * 60

/-- Embeds cleanup_expired_exchanges (src/main.rs lines 261-273): retain every
record except those with status Initiated and created_at strictly before
now minus 24 hours. (The source sets the status of the dropped record to Expired
immediately before discarding it; the store after the pass is the filtered
map either way.) -/
def cleanup_expired_exchanges (data : AppState) (now : Timestamp) : AppState :=
  let expiry_time := now - expiryWindow
  { data with key_exchanges := data.key_exchanges.filter (fun p =>
      !decide (p.2.status = KeyExchangeStatus.Initiated ∧ p.2.created_at < expiry_time)) }

/-- One externally triggered mutating operation on the server state: the three
exchange routes, the message store route, and a sweeper pass. -/
inductive ServerOp where
  | init (req : InitKeyExchangeRequest) (now : Timestamp)
  | pair (req : PairKeyExchangeRequest) (now : Timestamp)
  | complete (req : CompleteKeyExchangeRequest) (now : Timestamp)
  | store (req : StoreMessageRequest) (now : Timestamp)
  | sweep (now : Timestamp)

/-- The state transformer of one operation. -/
def applyOp (data : AppState) : ServerOp → AppState
  | ServerOp.init req now => (init_key_exchange data req now).1
  | ServerOp.pair req now => (pair_exchange data req now).1
  | ServerOp.complete req now => (complete_exchange data req now).1
  | ServerOp.store req now => (store_message data req now).1
  | ServerOp.sweep now => cleanup_expired_exchanges data now

/-- The state after running a sequence of operations from the empty startup
state: exactly the reachable states of the server. -/
def runOps (t : List ServerOp) : AppState :=
  t.foldl applyOp emptyState

/-! ### Lemmas about the association-list map operations -/

theorem mlookup_minsert_self {V : Type} (m : List (String × V)) (k : String) (v : V) :
    mlookup (minsert m k v) k = some v := by
  induction m with
  | nil => simp [minsert, mlookup]
  | cons p rest ih =>
      obtain ⟨k', v'⟩ := p
      by_cases h : k' = k
      · simp [minsert, h, mlookup]
      · simp [minsert, h, mlookup, ih]

theorem mlookup_minsert_ne {V : Type} (m : List (String × V)) (k k₁ : String) (v : V)
    (h : k₁ ≠ k) : mlookup (minsert m k v) k₁ = mlookup m k₁ := by
  induction m with
  | nil => simp [minsert, mlookup, Ne.symm h]
  | cons p rest ih =>
      obtain ⟨k', v'⟩ := p
      by_cases hk : k' = k
      · subst hk
        simp [minsert, mlookup, Ne.symm h]
      · simp [minsert, hk, mlookup, ih]

theorem mlookup_mpush_self {V : Type} (m : List (String × List V)) (k : String) (v : V) :
    mlookup (mpush m k v) k = some ((mlookup m k).getD [] ++ [v]) := by
  induction m with
  | nil => simp [mpush, mlookup]
  | cons p rest ih =>
      obtain ⟨k', vs⟩ := p
      by_cases h : k' = k
      · simp [mpush, h, mlookup]
      · simp [mpush, h, mlookup, ih]

theorem mlookup_mpush_ne {V : Type} (m : List (String × List V)) (k k₁ : String) (v : V)
    (h : k₁ ≠ k) : mlookup (mpush m k v) k₁ = mlookup m k₁ := by
  induction m with
  | nil => simp [mpush, mlookup, Ne.symm h]
  | cons p rest ih =>
      obtain ⟨k', vs⟩ := p
      by_cases hk : k' = k
      · subst hk
        simp [mpush, mlookup, Ne.symm h]
      · simp [mpush, hk, mlookup, ih]

theorem mem_minsert {V : Type} {p : String × V} :
    ∀ (m : List (String × V)) (k : String) (v : V),
      p ∈ minsert m k v → p = (k, v) ∨ p ∈ m := by
  intro m
  induction m with
  | nil => intro k v hp; simpa [minsert] using hp
  | cons q rest ih =>
      intro k v hp
      obtain ⟨k', v'⟩ := q
      by_cases h : k' = k
      · simp [minsert, h] at hp
        rcases hp with hp | hp
        · exact Or.inl (by simp [hp])
        · exact Or.inr (List.mem_cons_of_mem _ hp)
      · simp [minsert, h] at hp
        rcases hp with hp | hp
        · exact Or.inr (by simp [hp])
        · rcases ih k v hp with hp' | hp'
          · exact Or.inl hp'
          · exact Or.inr (List.mem_cons_of_mem _ hp')

theorem mem_of_mlookup {V : Type} :
    ∀ (m : List (String × V)) (k : String) (v : V),
      mlookup m k = some v → (k, v) ∈ m := by
  intro m
  induction m with
  | nil => intro k v hv; simp [mlookup] at hv
  | cons q rest ih =>
      intro k v hv
      obtain ⟨k', v'⟩ := q
      by_cases h : k' = k
      · subst h
        simp [mlookup] at hv
        simp [hv]
      · simp [mlookup, h] at hv
        exact List.mem_cons_of_mem _ (ih k v hv)

/-! ### Demonstration records used by concrete evaluations -/

/-- An Initiated record for the pair (A, B) as init_key_exchange creates it. -/
def demoInit : KeyExchange := newExchange ⟨"A", "B", "kyberA", "sigA"⟩ 0

/-- The record after pair_exchange updates demoInit. -/
def demoPaired : KeyExchange :=
  { demoInit with
    responder_signature := some "sigB"
    encapsulated_secret := some "secret"
    status := KeyExchangeStatus.Paired
    paired_at := some 10 }

/-- The record after complete_exchange updates demoPaired. -/
def demoComplete : KeyExchange :=
  { demoPaired with
    status := KeyExchangeStatus.Complete
    completed_at := some 20 }

/-- A store holding exactly one record, the Paired record for (A, B). -/
def pairedOnlyState : AppState :=
  { key_exchanges := [(exchangeId "A" "B", demoPaired)], messages := [] }

/-- A store holding exactly one record, the Initiated record for (A, B). -/
def initiatedOnlyState : AppState :=
  { key_exchanges := [(exchangeId "A" "B", demoInit)], messages := [] }

/-! ### Claim C1 -/

/-- C1 (code bug evidence): the Paired listing does not filter by responder
identifier. For a store holding one Paired record whose responder identifier is
"B" and whose initiator_signature is "sigA", querying the Paired listing with
"B" returns nothing, while querying it with the signature "sigA" returns the
record; the Initiated and Complete listings of the same shape do filter by
responder. get_paired_exchanges (src/main.rs line 230) compares the
initiator_signature field against the path parameter even though its comment
and route say the parameter is the responder pubkey. -/
theorem get_paired_exchanges_ignores_responder :
    (get_paired_exchanges pairedOnlyState "B").2 = []
    ∧ (get_paired_exchanges pairedOnlyState "sigA").2 = [(exchangeId "A" "B", demoPaired)]
    ∧ demoPaired.responder_falcon_pubkey = "B"
    ∧ demoPaired.initiator_signature = "sigA"
    ∧ demoPaired.status = KeyExchangeStatus.Paired := by
  refine ⟨by decide, by decide, by decide, by decide, by decide⟩

/-! ### Claim C2 -/

/-- C2 counterexample: store_message does append the message, but its response
is the fixed confirmation string, not the created Message. -/
theorem store_message_response_not_the_message :
    (store_message emptyState ⟨"a", "b", "c"⟩ 0).2
        = StoreResponse.confirmation "Message stored successfully"
    ∧ (store_message emptyState ⟨"a", "b", "c"⟩ 0).2
        ≠ StoreResponse.storedMessage (newMessage ⟨"a", "b", "c"⟩ 0)
    ∧ (store_message emptyState ⟨"a", "b", "c"⟩ 0).1.messages
        = [("b", [newMessage ⟨"a", "b", "c"⟩ 0])] := by
  refine ⟨by decide, by decide, by decide⟩

/-- C2 (amended): every StoreMessage call appends a new Message, built from the
request with the store-assigned timestamp, to the sequence of the recipient
(creating the sequence if absent), and returns the textual confirmation
"Message stored successfully" rather than the created Message. -/
theorem store_message_appends_and_confirms (data : AppState)
    (message : StoreMessageRequest) (now : Timestamp) :
    mlookup (store_message data message now).1.messages message.to_pubkey
      = some ((mlookup data.messages message.to_pubkey).getD [] ++ [newMessage message now])
    ∧ (store_message data message now).2
      = StoreResponse.confirmation "Message stored successfully" := by
  constructor
  · simpa [store_message] using
      mlookup_mpush_self data.messages message.to_pubkey (newMessage message now)
  · rfl

/-! ### Claim C3 -/

/-- C3 counterexample: a sweep at time now = expiryWindow leaves untouched an
Initiated record with created_at = 0, i.e. with age exactly the 24-hour window,
because the source compares created_at < now - window strictly; the claim says
such a record is expired and removed. -/
theorem sweep_keeps_record_at_exact_boundary :
    cleanup_expired_exchanges initiatedOnlyState expiryWindow = initiatedOnlyState
    ∧ demoInit.status = KeyExchangeStatus.Initiated
    ∧ demoInit.created_at = expiryWindow - expiryWindow := by
  refine ⟨by decide, by decide, by decide⟩

/-- C3 (amended): a single sweep pass removes exactly the records whose status
is Initiated and whose created_at is strictly before now minus the 24-hour
window; a record with created_at exactly at now - W is kept, and records in
any other status (in particular Paired and Complete) are never removed. -/
theorem cleanup_removes_exactly_strictly_expired (data : AppState) (now : Timestamp)
    (p : String × KeyExchange) :
    p ∈ (cleanup_expired_exchanges data now).key_exchanges ↔
      p ∈ data.key_exchanges ∧
        ¬(p.2.status = KeyExchangeStatus.Initiated ∧ p.2.created_at < now - expiryWindow) := by
  simp only [cleanup_expired_exchanges, List.mem_filter, Bool.not_eq_true',
    decide_eq_false_iff_not]

/-! ### Claim C4 -/

/-- C4 counterexample: an Init call whose four fields are all empty strings is
not rejected; it succeeds and inserts a fresh record under the key ":". -/
theorem init_empty_fields_accepted :
    (init_key_exchange emptyState ⟨"", "", "", ""⟩ 0).2
        = ExchangeResponse.ok (newExchange ⟨"", "", "", ""⟩ 0)
    ∧ (init_key_exchange emptyState ⟨"", "", "", ""⟩ 0).1.key_exchanges
        = [(exchangeId "" "", newExchange ⟨"", "", "", ""⟩ 0)] := by
  refine ⟨by decide, by decide⟩

/-- C4 (amended): init_key_exchange performs no validation of its four fields;
a call with all fields empty proceeds under the normal policy — here, with no
existing record at the computed key, it succeeds and inserts the fresh
Initiated record. -/
theorem init_no_field_validation (data : AppState) (now : Timestamp)
    (h : mlookup data.key_exchanges (exchangeId "" "") = none) :
    (init_key_exchange data ⟨"", "", "", ""⟩ now).2
        = ExchangeResponse.ok (newExchange ⟨"", "", "", ""⟩ now)
    ∧ mlookup (init_key_exchange data ⟨"", "", "", ""⟩ now).1.key_exchanges
        (exchangeId "" "")
        = some (newExchange ⟨"", "", "", ""⟩ now) := by
  constructor
  · simp [init_key_exchange, h]
  · simp [init_key_exchange, h, mlookup_minsert_self]

/-- C4 witness: the amended theorem applied to the empty store. -/
theorem init_no_field_validation_witness :
    (init_key_exchange emptyState ⟨"", "", "", ""⟩ 0).2
        = ExchangeResponse.ok (newExchange ⟨"", "", "", ""⟩ 0)
    ∧ mlookup (init_key_exchange emptyState ⟨"", "", "", ""⟩ 0).1.key_exchanges
        (exchangeId "" "")
        = some (newExchange ⟨"", "", "", ""⟩ 0) :=
  init_no_field_validation emptyState 0 (by decide)

/-! ### Claim C5 -/

/-- A store holding exactly one record, the Complete record for (A, B). -/
def completedOnlyState : AppState :=
  { key_exchanges := [(exchangeId "A" "B", demoComplete)], messages := [] }

/-- C5: Init policy. If the record at the pair key is Complete, the call fails
with Conflict and the whole store is unchanged; if the record is in any other
status, or absent, a fresh record is inserted at the key and returned; the
fresh record has status Initiated, created_at = now, and all optional fields
absent. -/
theorem init_key_exchange_policy (data : AppState) (req : InitKeyExchangeRequest)
    (now : Timestamp) :
    (∀ ke, mlookup data.key_exchanges
          (exchangeId req.initiator_falcon_pubkey req.responder_falcon_pubkey) = some ke →
        ke.status = KeyExchangeStatus.Complete →
        init_key_exchange data req now
          = (data, ExchangeResponse.conflict "Active key exchange already exists"))
    ∧ (∀ ke, mlookup data.key_exchanges
          (exchangeId req.initiator_falcon_pubkey req.responder_falcon_pubkey) = some ke →
        ke.status ≠ KeyExchangeStatus.Complete →
        (init_key_exchange data req now).2 = ExchangeResponse.ok (newExchange req now)
        ∧ mlookup (init_key_exchange data req now).1.key_exchanges
            (exchangeId req.initiator_falcon_pubkey req.responder_falcon_pubkey)
          = some (newExchange req now))
    ∧ (mlookup data.key_exchanges
          (exchangeId req.initiator_falcon_pubkey req.responder_falcon_pubkey) = none →
        (init_key_exchange data req now).2 = ExchangeResponse.ok (newExchange req now)
        ∧ mlookup (init_key_exchange data req now).1.key_exchanges
            (exchangeId req.initiator_falcon_pubkey req.responder_falcon_pubkey)
          = some (newExchange req now))
    ∧ (newExchange req now).status = KeyExchangeStatus.Initiated
    ∧ (newExchange req now).created_at = now
    ∧ (newExchange req now).responder_signature = none
    ∧ (newExchange req now).encapsulated_secret = none
    ∧ (newExchange req now).paired_at = none
    ∧ (newExchange req now).completed_at = none := by
  refine ⟨?_, ?_, ?_, rfl, rfl, rfl, rfl, rfl, rfl⟩
  · intro ke hke hst
    simp [init_key_exchange, hke, hst]
  · intro ke hke hst
    refine ⟨?_, ?_⟩
    · simp [init_key_exchange, hke, hst]
    · simp [init_key_exchange, hke, hst, mlookup_minsert_self]
  · intro h
    exact ⟨by simp [init_key_exchange, h],
           by simp [init_key_exchange, h, mlookup_minsert_self]⟩

/-- C5 witness: re-initiating the (A, B) pair whose record is Complete is
rejected with Conflict and the store is unchanged. -/
theorem init_key_exchange_policy_witness :
    init_key_exchange completedOnlyState ⟨"A", "B", "kyber2", "sig2"⟩ 5
      = (completedOnlyState, ExchangeResponse.conflict "Active key exchange already exists") :=
  (init_key_exchange_policy completedOnlyState ⟨"A", "B", "kyber2", "sig2"⟩ 5).1
    demoComplete (by decide) (by decide)

/-! ### Claim C6 -/

/-- C6: the Pair and Complete state machine. Pair: NotFound when no record
exists at the pair key; InvalidState (BadRequest) with the store entirely
unchanged when the record is not exactly Initiated; on success the record gets
responder_signature, encapsulated_secret, status Paired and paired_at = now,
and the updated record is returned. Complete: the same with required status
Paired, setting status Complete and completed_at = now. Status therefore only
moves forward Initiated to Paired to Complete. -/
theorem pair_complete_state_machine (data : AppState) (preq : PairKeyExchangeRequest)
    (creq : CompleteKeyExchangeRequest) (now : Timestamp) :
    (mlookup data.key_exchanges
        (exchangeId preq.initiator_falcon_pubkey preq.responder_falcon_pubkey) = none →
      pair_exchange data preq now = (data, ExchangeResponse.notFound))
    ∧ (∀ ke, mlookup data.key_exchanges
          (exchangeId preq.initiator_falcon_pubkey preq.responder_falcon_pubkey) = some ke →
        ke.status ≠ KeyExchangeStatus.Initiated →
        pair_exchange data preq now
          = (data, ExchangeResponse.badRequest "Key exchange not in Initiated state"))
    ∧ (∀ ke, mlookup data.key_exchanges
          (exchangeId preq.initiator_falcon_pubkey preq.responder_falcon_pubkey) = some ke →
        ke.status = KeyExchangeStatus.Initiated →
        (pair_exchange data preq now).2 = ExchangeResponse.ok { ke with responder_signature := some preq.responder_signature, encapsulated_secret := some preq.encapsulated_secret, status := KeyExchangeStatus.Paired, paired_at := some now }
        ∧ mlookup (pair_exchange data preq now).1.key_exchanges
            (exchangeId preq.initiator_falcon_pubkey preq.responder_falcon_pubkey)
          = some { ke with responder_signature := some preq.responder_signature, encapsulated_secret := some preq.encapsulated_secret, status := KeyExchangeStatus.Paired, paired_at := some now })
    ∧ (mlookup data.key_exchanges
        (exchangeId creq.initiator_falcon_pubkey creq.responder_falcon_pubkey) = none →
      complete_exchange data creq now = (data, ExchangeResponse.notFound))
    ∧ (∀ ke, mlookup data.key_exchanges
          (exchangeId creq.initiator_falcon_pubkey creq.responder_falcon_pubkey) = some ke →
        ke.status ≠ KeyExchangeStatus.Paired →
        complete_exchange data creq now
          = (data, ExchangeResponse.badRequest "Key exchange not in Paired state"))
    ∧ (∀ ke, mlookup data.key_exchanges
          (exchangeId creq.initiator_falcon_pubkey creq.responder_falcon_pubkey) = some ke →
        ke.status = KeyExchangeStatus.Paired →
        (complete_exchange data creq now).2 = ExchangeResponse.ok { ke with status := KeyExchangeStatus.Complete, completed_at := some now }
        ∧ mlookup (complete_exchange data creq now).1.key_exchanges
            (exchangeId creq.initiator_falcon_pubkey creq.responder_falcon_pubkey)
          = some { ke with status := KeyExchangeStatus.Complete, completed_at := some now }) := by
  refine ⟨?_, ?_, ?_, ?_, ?_, ?_⟩
  · intro h
    simp [pair_exchange, h]
  · intro ke hke hst
    simp [pair_exchange, hke, hst]
  · intro ke hke hst
    exact ⟨by simp [pair_exchange, hke, hst],
           by simp [pair_exchange, hke, hst, mlookup_minsert_self]⟩
  · intro h
    simp [complete_exchange, h]
  · intro ke hke hst
    simp [complete_exchange, hke, hst]
  · intro ke hke hst
    exact ⟨by simp [complete_exchange, hke, hst],
           by simp [complete_exchange, hke, hst, mlookup_minsert_self]⟩

/-- C6 witness: pairing a pair key with no record fails with NotFound on the
empty store, which is left unchanged. -/
theorem pair_complete_state_machine_witness :
    pair_exchange emptyState ⟨"A", "B", "secret", "sigB"⟩ 0
      = (emptyState, ExchangeResponse.notFound) :=
  (pair_complete_state_machine emptyState ⟨"A", "B", "secret", "sigB"⟩ ⟨"A", "B"⟩ 0).1 rfl

/-! ### Claim C7 -/

/-- Splitting at a separator absent from both leading parts is unambiguous. -/
theorem append_sep_inj {α : Type} {c : α} :
    ∀ (x x' y y' : List α), c ∉ x → c ∉ x' →
      x ++ c :: y = x' ++ c :: y' → x = x' ∧ y = y' := by
  intro x
  induction x with
  | nil =>
      intro x' y y' _ hx' h
      cases x' with
      | nil =>
          simp only [List.nil_append] at h
          exact ⟨rfl, (List.cons.inj h).2⟩
      | cons a t =>
          simp only [List.nil_append, List.cons_append] at h
          obtain ⟨hc, _⟩ := List.cons.inj h
          exact absurd (hc ▸ List.mem_cons_self a t) hx'
  | cons a t ih =>
      intro x' y y' hx hx' h
      cases x' with
      | nil =>
          simp only [List.nil_append, List.cons_append] at h
          obtain ⟨hc, _⟩ := List.cons.inj h
          exact absurd (hc.symm ▸ List.mem_cons_self a t) hx
      | cons a' t' =>
          simp only [List.cons_append] at h
          obtain ⟨ha, hrest⟩ := List.cons.inj h
          have ht := ih t' y y' (fun hm => hx (List.mem_cons_of_mem a hm))
            (fun hm => hx' (List.mem_cons_of_mem a' hm)) hrest
          exact ⟨by rw [ha, ht.1], ht.2⟩

/-- C7 counterexample: two distinct ordered pairs of identifiers that collide
onto the same pair key, because the key is the colon-joined concatenation and
identifiers may themselves contain a colon. -/
theorem exchangeId_collision :
    exchangeId "a:b" "c" = exchangeId "a" "b:c"
    ∧ (("a:b", "c") : String × String) ≠ ("a", "b:c") := by
  refine ⟨by decide, by decide⟩

/-- C7 (amended): as long as the initiator identifiers contain no colon, the
pair key is injective: two ordered pairs with the same key are equal, so in
particular Init(A,B) and Init(B,A) with A different from B use different keys
and their records are independent. Identifiers containing a colon can collide
(see the counterexample). -/
theorem exchangeId_injective_on_colon_free (a b c d : String)
    (ha : ':' ∉ a.data) (hc : ':' ∉ c.data)
    (h : exchangeId a b = exchangeId c d) : a = c ∧ b = d := by
  have hdata : a.data ++ ':' :: b.data = c.data ++ ':' :: d.data := by
    have hd := congrArg String.data h
    simpa [exchangeId, String.data_append] using hd
  obtain ⟨h1, h2⟩ := append_sep_inj a.data c.data b.data d.data ha hc hdata
  exact ⟨String.ext h1, String.ext h2⟩

/-- C7 witness: the amended injectivity applied at colon-free identifiers. -/
theorem exchangeId_injective_witness :
    (':' ∉ ("A" : String).data)
    ∧ (("A" : String) = "A" ∧ ("B" : String) = "B") :=
  ⟨by decide, exchangeId_injective_on_colon_free "A" "B" "A" "B" (by decide) (by decide) rfl⟩

/-! ### Claim C8 -/

/-- The option-field discipline of a single handshake record:
responder_signature, encapsulated_secret and paired_at are present exactly in
the Paired and Complete statuses, and completed_at exactly in Complete. -/
def recordInv (ke : KeyExchange) : Prop :=
  (ke.responder_signature.isSome = true ↔
      (ke.status = KeyExchangeStatus.Paired ∨ ke.status = KeyExchangeStatus.Complete))
  ∧ (ke.encapsulated_secret.isSome = true ↔
      (ke.status = KeyExchangeStatus.Paired ∨ ke.status = KeyExchangeStatus.Complete))
  ∧ (ke.paired_at.isSome = true ↔
      (ke.status = KeyExchangeStatus.Paired ∨ ke.status = KeyExchangeStatus.Complete))
  ∧ (ke.completed_at.isSome = true ↔ ke.status = KeyExchangeStatus.Complete)

theorem recordInv_newExchange (req : InitKeyExchangeRequest) (now : Timestamp) :
    recordInv (newExchange req now) := by
  simp [recordInv, newExchange]

/-- Any record present after init_key_exchange was either present before, or
is the fresh record at the pair key. -/
theorem mem_init_key_exchanges (data : AppState) (req : InitKeyExchangeRequest)
    (now : Timestamp) (p : String × KeyExchange)
    (hp : p ∈ (init_key_exchange data req now).1.key_exchanges) :
    p ∈ data.key_exchanges
    ∨ p = (exchangeId req.initiator_falcon_pubkey req.responder_falcon_pubkey,
           newExchange req now) := by
  cases hm : mlookup data.key_exchanges
      (exchangeId req.initiator_falcon_pubkey req.responder_falcon_pubkey) with
  | none =>
      simp only [init_key_exchange, hm] at hp
      rcases mem_minsert _ _ _ hp with h | h
      · exact Or.inr h
      · exact Or.inl h
  | some ke =>
      by_cases hst : ke.status = KeyExchangeStatus.Complete
      · simp only [init_key_exchange, hm, hst, if_pos] at hp
        exact Or.inl hp
      · simp only [init_key_exchange, hm, if_neg hst] at hp
        rcases mem_minsert _ _ _ hp with h | h
        · exact Or.inr h
        · exact Or.inl h

/-- Any record present after pair_exchange was either present before, or is
the Paired update of a record that was present before with status Initiated. -/
theorem mem_pair_key_exchanges (data : AppState) (req : PairKeyExchangeRequest)
    (now : Timestamp) (p : String × KeyExchange)
    (hp : p ∈ (pair_exchange data req now).1.key_exchanges) :
    p ∈ data.key_exchanges
    ∨ ∃ ke, (exchangeId req.initiator_falcon_pubkey req.responder_falcon_pubkey, ke)
            ∈ data.key_exchanges
        ∧ ke.status = KeyExchangeStatus.Initiated
        ∧ p = (exchangeId req.initiator_falcon_pubkey req.responder_falcon_pubkey,
               { ke with responder_signature := some req.responder_signature, encapsulated_secret := some req.encapsulated_secret, status := KeyExchangeStatus.Paired, paired_at := some now }) := by
  cases hm : mlookup data.key_exchanges
      (exchangeId req.initiator_falcon_pubkey req.responder_falcon_pubkey) with
  | none =>
      simp only [pair_exchange, hm] at hp
      exact Or.inl hp
  | some ke =>
      by_cases hst : ke.status = KeyExchangeStatus.Initiated
      · simp only [pair_exchange, hm, hst, ne_eq, not_true_eq_false, if_false] at hp
        rcases mem_minsert _ _ _ hp with h | h
        · exact Or.inr ⟨ke, mem_of_mlookup _ _ _ hm, hst, h⟩
        · exact Or.inl h
      · simp only [pair_exchange, hm, ne_eq, hst, not_false_eq_true, if_true] at hp
        exact Or.inl hp

/-- Any record present after complete_exchange was either present before, or
is the Complete update of a record that was present before with status
Paired. -/
theorem mem_complete_key_exchanges (data : AppState) (req : CompleteKeyExchangeRequest)
    (now : Timestamp) (p : String × KeyExchange)
    (hp : p ∈ (complete_exchange data req now).1.key_exchanges) :
    p ∈ data.key_exchanges
    ∨ ∃ ke, (exchangeId req.initiator_falcon_pubkey req.responder_falcon_pubkey, ke)
            ∈ data.key_exchanges
        ∧ ke.status = KeyExchangeStatus.Paired
        ∧ p = (exchangeId req.initiator_falcon_pubkey req.responder_falcon_pubkey,
               { ke with status := KeyExchangeStatus.Complete, completed_at := some now }) := by
  cases hm : mlookup data.key_exchanges
      (exchangeId req.initiator_falcon_pubkey req.responder_falcon_pubkey) with
  | none =>
      simp only [complete_exchange, hm] at hp
      exact Or.inl hp
  | some ke =>
      by_cases hst : ke.status = KeyExchangeStatus.Paired
      · simp only [complete_exchange, hm, hst, ne_eq, not_true_eq_false, if_false] at hp
        rcases mem_minsert _ _ _ hp with h | h
        · exact Or.inr ⟨ke, mem_of_mlookup _ _ _ hm, hst, h⟩
        · exact Or.inl h
      · simp only [complete_exchange, hm, ne_eq, hst, not_false_eq_true, if_true] at hp
        exact Or.inl hp

/-- Every single operation preserves the option-field discipline of every
stored record. -/
theorem applyOp_preserves_recordInv (data : AppState) (op : ServerOp)
    (h : ∀ p ∈ data.key_exchanges, recordInv p.2) :
    ∀ p ∈ (applyOp data op).key_exchanges, recordInv p.2 := by
  cases op with
  | init req now =>
      intro p hp
      rcases mem_init_key_exchanges data req now p hp with hold | hnew
      · exact h p hold
      · rw [hnew]
        exact recordInv_newExchange req now
  | pair req now =>
      intro p hp
      rcases mem_pair_key_exchanges data req now p hp with hold | ⟨ke, hmem, hst, hnew⟩
      · exact h p hold
      · obtain ⟨_, _, _, h4⟩ := h _ hmem
        rw [hst] at h4
        simp only [reduceCtorEq, iff_false, Bool.not_eq_true, Option.not_isSome,
          Option.isNone_iff_eq_none] at h4
        rw [hnew]
        simp [recordInv, h4]
  | complete req now =>
      intro p hp
      rcases mem_complete_key_exchanges data req now p hp with hold | ⟨ke, hmem, hst, hnew⟩
      · exact h p hold
      · obtain ⟨h1, h2, h3, _⟩ := h _ hmem
        rw [hst] at h1 h2 h3
        simp only [reduceCtorEq, or_false, iff_true] at h1 h2 h3
        rw [hnew]
        simp [recordInv, h1, h2, h3]
  | store req now =>
      intro p hp
      exact h p hp
  | sweep now =>
      intro p hp
      simp only [applyOp, cleanup_expired_exchanges, List.mem_filter] at hp
      exact h p hp.1

theorem foldl_preserves_recordInv (t : List ServerOp) :
    ∀ data, (∀ p ∈ data.key_exchanges, recordInv p.2) →
      ∀ p ∈ (t.foldl applyOp data).key_exchanges, recordInv p.2 := by
  induction t with
  | nil => intro data h; simpa using h
  | cons op rest ih =>
      intro data h
      exact ih _ (applyOp_preserves_recordInv data op h)

/-- C8: in every state reachable by any sequence of operations from the empty
startup state, every stored record has responder_signature,
encapsulated_secret and paired_at present exactly when its status is Paired or
Complete, and completed_at present exactly when its status is Complete. -/
theorem handshake_option_fields_invariant (t : List ServerOp)
    (p : String × KeyExchange) (hp : p ∈ (runOps t).key_exchanges) :
    (p.2.responder_signature.isSome = true ↔
        (p.2.status = KeyExchangeStatus.Paired ∨ p.2.status = KeyExchangeStatus.Complete))
    ∧ (p.2.encapsulated_secret.isSome = true ↔
        (p.2.status = KeyExchangeStatus.Paired ∨ p.2.status = KeyExchangeStatus.Complete))
    ∧ (p.2.paired_at.isSome = true ↔
        (p.2.status = KeyExchangeStatus.Paired ∨ p.2.status = KeyExchangeStatus.Complete))
    ∧ (p.2.completed_at.isSome = true ↔ p.2.status = KeyExchangeStatus.Complete) :=
  foldl_preserves_recordInv t emptyState (by simp [emptyState]) p hp

/-- C8 witness: the invariant read off the record created by one Init on the
empty store. -/
theorem handshake_option_fields_invariant_witness :
    ((exchangeId "A" "B", newExchange ⟨"A", "B", "kyberA", "sigA"⟩ 0)
        ∈ (runOps [ServerOp.init ⟨"A", "B", "kyberA", "sigA"⟩ 0]).key_exchanges)
    ∧ (((newExchange ⟨"A", "B", "kyberA", "sigA"⟩ 0).responder_signature.isSome = true ↔
        ((newExchange ⟨"A", "B", "kyberA", "sigA"⟩ 0).status = KeyExchangeStatus.Paired
          ∨ (newExchange ⟨"A", "B", "kyberA", "sigA"⟩ 0).status = KeyExchangeStatus.Complete))
      ∧ (((newExchange ⟨"A", "B", "kyberA", "sigA"⟩ 0).encapsulated_secret.isSome = true ↔
        ((newExchange ⟨"A", "B", "kyberA", "sigA"⟩ 0).status = KeyExchangeStatus.Paired
          ∨ (newExchange ⟨"A", "B", "kyberA", "sigA"⟩ 0).status = KeyExchangeStatus.Complete)))
      ∧ (((newExchange ⟨"A", "B", "kyberA", "sigA"⟩ 0).paired_at.isSome = true ↔
        ((newExchange ⟨"A", "B", "kyberA", "sigA"⟩ 0).status = KeyExchangeStatus.Paired
          ∨ (newExchange ⟨"A", "B", "kyberA", "sigA"⟩ 0).status = KeyExchangeStatus.Complete)))
      ∧ ((newExchange ⟨"A", "B", "kyberA", "sigA"⟩ 0).completed_at.isSome = true ↔
        (newExchange ⟨"A", "B", "kyberA", "sigA"⟩ 0).status = KeyExchangeStatus.Complete)) :=
  ⟨by decide,
   handshake_option_fields_invariant [ServerOp.init ⟨"A", "B", "kyberA", "sigA"⟩ 0]
     (exchangeId "A" "B", newExchange ⟨"A", "B", "kyberA", "sigA"⟩ 0) (by decide)⟩

/-! ### Claim C9 -/

/-- The message, if any, that one operation stores for recipient r. -/
def storedFor (r : String) : ServerOp → Option Message
  | ServerOp.store req now => if req.to_pubkey = r then some (newMessage req now) else none
  | _ => none

theorem get_messages_snd (data : AppState) (r : String) :
    (get_messages data r).2 = (mlookup data.messages r).getD [] := by
  cases h : mlookup data.messages r <;> simp [get_messages, h]

theorem init_messages_eq (data : AppState) (req : InitKeyExchangeRequest)
    (now : Timestamp) : (init_key_exchange data req now).1.messages = data.messages := by
  cases hm : mlookup data.key_exchanges
      (exchangeId req.initiator_falcon_pubkey req.responder_falcon_pubkey) with
  | none => simp [init_key_exchange, hm]
  | some ke =>
      by_cases hst : ke.status = KeyExchangeStatus.Complete
      · simp [init_key_exchange, hm, hst]
      · simp [init_key_exchange, hm, hst]

theorem pair_messages_eq (data : AppState) (req : PairKeyExchangeRequest)
    (now : Timestamp) : (pair_exchange data req now).1.messages = data.messages := by
  cases hm : mlookup data.key_exchanges
      (exchangeId req.initiator_falcon_pubkey req.responder_falcon_pubkey) with
  | none => simp [pair_exchange, hm]
  | some ke =>
      by_cases hst : ke.status = KeyExchangeStatus.Initiated
      · simp [pair_exchange, hm, hst]
      · simp [pair_exchange, hm, hst]

theorem complete_messages_eq (data : AppState) (req : CompleteKeyExchangeRequest)
    (now : Timestamp) : (complete_exchange data req now).1.messages = data.messages := by
  cases hm : mlookup data.key_exchanges
      (exchangeId req.initiator_falcon_pubkey req.responder_falcon_pubkey) with
  | none => simp [complete_exchange, hm]
  | some ke =>
      by_cases hst : ke.status = KeyExchangeStatus.Paired
      · simp [complete_exchange, hm, hst]
      · simp [complete_exchange, hm, hst]

/-- One operation extends the fetched sequence of recipient r by exactly the message
it stores for r (none for the handshake operations and the sweeper). -/
theorem get_messages_applyOp (data : AppState) (op : ServerOp) (r : String) :
    (get_messages (applyOp data op) r).2
      = (get_messages data r).2 ++ (storedFor r op).toList := by
  cases op with
  | init req now => simp [applyOp, get_messages_snd, init_messages_eq, storedFor]
  | pair req now => simp [applyOp, get_messages_snd, pair_messages_eq, storedFor]
  | complete req now => simp [applyOp, get_messages_snd, complete_messages_eq, storedFor]
  | store req now =>
      by_cases hto : req.to_pubkey = r
      · subst hto
        simp [applyOp, get_messages_snd, store_message, storedFor, mlookup_mpush_self]
      · simp [applyOp, get_messages_snd, store_message, storedFor, hto,
          mlookup_mpush_ne data.messages req.to_pubkey r _ (Ne.symm hto)]
  | sweep now => simp [applyOp, get_messages_snd, cleanup_expired_exchanges, storedFor]

theorem foldl_messages (t : List ServerOp) :
    ∀ data r, (get_messages (t.foldl applyOp data) r).2
      = (get_messages data r).2 ++ t.filterMap (storedFor r) := by
  induction t with
  | nil => simp
  | cons op rest ih =>
      intro data r
      rw [List.foldl_cons, ih, get_messages_applyOp, List.filterMap_cons]
      cases hop : storedFor r op <;> simp [hop, List.append_assoc]

/-- C9: in every state reachable by any sequence of operations from the empty
startup state, fetching recipient r returns exactly the messages stored for r,
in the order their store operations appear in the sequence (messages for any
other recipient never appear); when nothing was stored for r the result is the
empty sequence, and the handler has no error outcome. -/
theorem get_messages_returns_stored_in_order (t : List ServerOp) (r : String) :
    (get_messages (runOps t) r).2 = t.filterMap (storedFor r) := by
  have h := foldl_messages t emptyState r
  simpa [runOps, get_messages, emptyState, mlookup] using h

/-! ### Claim C10 -/

/-- C10: every mutating operation touches at most its own map entry. Init, Pair
and Complete leave every handshake entry other than their pair key, and the
whole message store, unchanged; StoreMessage leaves every mailbox other than
its recipient, and the whole handshake store, unchanged; the four read
handlers return the state untouched. -/
theorem mutating_ops_frame (data : AppState) (now : Timestamp) :
    (∀ (req : InitKeyExchangeRequest) (k : String),
        k ≠ exchangeId req.initiator_falcon_pubkey req.responder_falcon_pubkey →
        mlookup (init_key_exchange data req now).1.key_exchanges k
          = mlookup data.key_exchanges k)
    ∧ (∀ (req : InitKeyExchangeRequest),
        (init_key_exchange data req now).1.messages = data.messages)
    ∧ (∀ (req : PairKeyExchangeRequest) (k : String),
        k ≠ exchangeId req.initiator_falcon_pubkey req.responder_falcon_pubkey →
        mlookup (pair_exchange data req now).1.key_exchanges k
          = mlookup data.key_exchanges k)
    ∧ (∀ (req : PairKeyExchangeRequest),
        (pair_exchange data req now).1.messages = data.messages)
    ∧ (∀ (req : CompleteKeyExchangeRequest) (k : String),
        k ≠ exchangeId req.initiator_falcon_pubkey req.responder_falcon_pubkey →
        mlookup (complete_exchange data req now).1.key_exchanges k
          = mlookup data.key_exchanges k)
    ∧ (∀ (req : CompleteKeyExchangeRequest),
        (complete_exchange data req now).1.messages = data.messages)
    ∧ (∀ (req : StoreMessageRequest) (rcpt : String), rcpt ≠ req.to_pubkey →
        mlookup (store_message data req now).1.messages rcpt
          = mlookup data.messages rcpt)
    ∧ (∀ (req : StoreMessageRequest),
        (store_message data req now).1.key_exchanges = data.key_exchanges)
    ∧ (∀ r, (get_messages data r).1 = data)
    ∧ (∀ r, (get_initiated_exchanges data r).1 = data)
    ∧ (∀ r, (get_paired_exchanges data r).1 = data)
    ∧ (∀ r, (get_completed_exchanges data r).1 = data) := by
  refine ⟨?_, fun req => init_messages_eq data req now,
          ?_, fun req => pair_messages_eq data req now,
          ?_, fun req => complete_messages_eq data req now,
          ?_, fun req => rfl, ?_, fun r => rfl, fun r => rfl, fun r => rfl⟩
  · intro req k hk
    cases hm : mlookup data.key_exchanges
        (exchangeId req.initiator_falcon_pubkey req.responder_falcon_pubkey) with
    | none => simp [init_key_exchange, hm, mlookup_minsert_ne _ _ _ _ hk]
    | some ke =>
        by_cases hst : ke.status = KeyExchangeStatus.Complete
        · simp [init_key_exchange, hm, hst]
        · simp [init_key_exchange, hm, hst, mlookup_minsert_ne _ _ _ _ hk]
  · intro req k hk
    cases hm : mlookup data.key_exchanges
        (exchangeId req.initiator_falcon_pubkey req.responder_falcon_pubkey) with
    | none => simp [pair_exchange, hm]
    | some ke =>
        by_cases hst : ke.status = KeyExchangeStatus.Initiated
        · simp [pair_exchange, hm, hst, mlookup_minsert_ne _ _ _ _ hk]
        · simp [pair_exchange, hm, hst]
  · intro req k hk
    cases hm : mlookup data.key_exchanges
        (exchangeId req.initiator_falcon_pubkey req.responder_falcon_pubkey) with
    | none => simp [complete_exchange, hm]
    | some ke =>
        by_cases hst : ke.status = KeyExchangeStatus.Paired
        · simp [complete_exchange, hm, hst, mlookup_minsert_ne _ _ _ _ hk]
        · simp [complete_exchange, hm, hst]
  · intro req rcpt hr
    simp [store_message, mlookup_mpush_ne _ _ _ _ hr]
  · intro r
    cases h : mlookup data.messages r <;> simp [get_messages, h]

/-- C10 witness: an Init for the pair (A, B) leaves the entry at another key
untouched. -/
theorem mutating_ops_frame_witness :
    mlookup (init_key_exchange emptyState ⟨"A", "B", "kyberA", "sigA"⟩ 0).1.key_exchanges "X:Y"
      = mlookup emptyState.key_exchanges "X:Y" :=
  (mutating_ops_frame emptyState 0).1 ⟨"A", "B", "kyberA", "sigA"⟩ "X:Y" (by decide)

end HyveMessageServer
